import Mathlib

/-!
# Verification of the nbatruths view-tracking and content-relation subsystem

Shallow embedding of the core operations of `blog/views.py` and
`blog/models.py`:

* `track_article_view` / `increment_views` — view deduplication ledger and
  counter (`ArticleDetailView.track_article_view`, `Article.increment_views`);
* `get_client_ip` — identity resolution from request headers
  (`ArticleDetailView.get_client_ip`);
* the related-articles query of `ArticleDetailView.get_context_data`;
* the team-stats aggregation of `ThunderView.get_context_data` and the
  `PlayerStats` default ordering (`Meta.ordering = ['-season']`);
* the AJAX endpoint `increment_article_views`.

Database rows are Lean structures, tables are lists of rows, and the Django
ORM calls are translated operation by operation.  Timestamps are modelled by
their calendar day (a `Nat`), since every operation under study touches only
`timestamp__date`.  SQL `NULL` semantics for the nullable `user` column of
the `ArticleView` unique constraint are modelled explicitly: two `NULL`s
never collide on a unique index, so only rows with `user` present can
conflict.  Python exceptions that escape an operation (Django's
`IntegrityError`, the interpreter's `NameError`) are modelled with `Except`.
-/

namespace NBATruths

/-- Error outcomes of the embedded Python/Django code: `integrityError` is
Django's `IntegrityError` on a unique-constraint violation; `nameError` is
the Python `NameError` raised when an unbound name is evaluated. -/
inductive PyErr where
  | integrityError
  | nameError
  deriving DecidableEq, Repr

/-- A row of the `blog_article` table.  Fields are the ones the verified
operations read or write: `id` (primary key), `status` (the string stored by
the `STATUS_CHOICES` field), optional `category` foreign key, `view_count`,
and the two many-to-many association sets, given by the ids of the related
`NBATeam` and `NBAPlayer` rows. -/
structure Article where
  id : Nat
  status : String
  category : Option Nat
  view_count : Nat
  related_teams : List Nat
  related_players : List Nat
  deriving DecidableEq, Repr

/-- A row of the `blog_articleview` table (the deduplication ledger), with
the fields of `ArticleView`: article foreign key, nullable user foreign key,
`ip_address`, the calendar day of the `auto_now_add` timestamp, and
`user_agent`. -/
structure ViewRow where
  article : Nat
  user : Option Nat
  ip_address : String
  day : Nat
  user_agent : String
  deriving DecidableEq, Repr

/-- The mutable store the view-tracking operations touch: the article table
and the `ArticleView` ledger.  New ledger rows are prepended. -/
structure DBState where
  articles : List Article
  ledger : List ViewRow
  deriving DecidableEq, Repr

/-- `ArticleView.objects.filter(article=…, ip_address=…,
timestamp__date=today).exists()` — the existence check of
`track_article_view` (views.py lines 114–118).  The filter does not mention
the `user` column. -/
def existingView (ledger : List ViewRow) (article : Nat) (ip : String)
    (today : Nat) : Bool :=
  ledger.any fun r => r.article == article && r.ip_address == ip && r.day == today

/-- Whether inserting `row` violates the unique constraint
`unique_together = ['article', 'ip_address', 'user']` of `ArticleView.Meta`
(models.py lines 182–183).  Per SQL semantics a `NULL` user never equals
another `NULL`, so rows with `user = none` never conflict. -/
def violatesUnique (ledger : List ViewRow) (row : ViewRow) : Bool :=
  ledger.any fun e =>
    e.article == row.article && e.ip_address == row.ip_address &&
      e.user == row.user && row.user.isSome

/-- `ArticleView.objects.create(...)` — inserts the row, or raises
`IntegrityError` when the unique constraint is violated.  The create call in
`track_article_view` is not wrapped in any `try`/`except`. -/
def createView (ledger : List ViewRow) (row : ViewRow) :
    Except PyErr (List ViewRow) :=
  if violatesUnique ledger row then .error .integrityError
  else .ok (row :: ledger)

/-- `Article.increment_views` (models.py lines 170–172): add one to
`view_count` of the row with the given primary key and persist it. -/
def increment_views (articles : List Article) (articleId : Nat) :
    List Article :=
  articles.map fun a =>
    if a.id == articleId then { a with view_count := a.view_count + 1 } else a

/-- `ArticleDetailView.track_article_view` (views.py lines 108–127), with
the request data passed explicitly: article primary key, the resolved client
IP, the authenticated user id (if any), the user-agent string, and `today =
timezone.now().date()`.  Returns the updated store and whether a view was
accepted (a ledger row written); an uncaught `IntegrityError` from the
create is an `Except.error`. -/
def track_article_view (st : DBState) (articleId : Nat) (ip : String)
    (user : Option Nat) (agent : String) (today : Nat) :
    Except PyErr (DBState × Bool) :=
  if existingView st.ledger articleId ip today then
    .ok (st, false)
  else
    match createView st.ledger ⟨articleId, user, ip, today, agent⟩ with
    | .error e => .error e
    | .ok l =>
        .ok ({ articles := increment_views st.articles articleId, ledger := l },
             true)

/-- `n` successive calls of `track_article_view` with the same request data
on the same day, threading the store; stops at the first uncaught error. -/
def trackN (articleId : Nat) (ip : String) (user : Option Nat)
    (agent : String) (today : Nat) : Nat → DBState → Except PyErr DBState
  | 0, st => .ok st
  | n + 1, st =>
      match track_article_view st articleId ip user agent today with
      | .error e => .error e
      | .ok (st', _) => trackN articleId ip user agent today n st'

/-- The stored `view_count` of the article with the given primary key. -/
def viewCountOf (st : DBState) (articleId : Nat) : Option Nat :=
  (st.articles.find? fun a => a.id == articleId).map (·.view_count)

/-- The number of ledger rows recorded for the given article. -/
def ledgerCountOf (st : DBState) (articleId : Nat) : Nat :=
  (st.ledger.filter fun r => r.article == articleId).length

/-- The AJAX endpoint `increment_article_views` (views.py lines 353–363):
on POST with a valid article id it calls `increment_views` and reports the
new count; it never writes the ledger.  Returns the updated store together
with the JSON payload's `success` flag and reported view count. -/
def increment_article_views (st : DBState) (articleId : Nat) :
    DBState × Bool × Option Nat :=
  match st.articles.find? fun a => a.id == articleId with
  | none => (st, false, none)
  | some _ =>
      let st' : DBState := { st with articles := increment_views st.articles articleId }
      (st', true, viewCountOf st' articleId)

/-! ## Identity resolution (`ArticleDetailView.get_client_ip`)

Strings coming from the request are handled at the character level so that
Python's `str.split(',')` can be embedded faithfully. -/

/-- Python's `s.split(sep)` for a one-character separator: splits at every
occurrence of the separator, keeping empty pieces, so the result is always
non-empty. -/
def pySplit (sep : Char) : List Char → List (List Char)
  | [] => [[]]
  | c :: rest =>
      let r := pySplit sep rest
      if c = sep then [] :: r else (c :: r.headD []) :: r.tail

/-- `ArticleDetailView.get_client_ip` (views.py lines 129–135), as a pure
function of `META.get('HTTP_X_FORWARDED_FOR')` and
`META.get('REMOTE_ADDR')` (either may be absent).  Python's truthiness test
`if x_forwarded_for:` sends a present-but-empty header to the
`REMOTE_ADDR` branch; otherwise the result is `x_forwarded_for.split(',')[0]`
with no trimming. -/
def get_client_ip (xForwardedFor : Option (List Char))
    (remoteAddr : Option (List Char)) : Option (List Char) :=
  match xForwardedFor with
  | some s => if s = [] then remoteAddr else some ((pySplit ',' s).headD s)
  | none => remoteAddr

/-! ## Related articles (`ArticleDetailView.get_context_data`) -/

/-- The `Q(category=…) | Q(related_teams__in=…) | Q(related_players__in=…)`
disjunction of the related-articles query (views.py lines 145–147).  Note
`Q(category=article.category)` with a `None` category compiles to
`category IS NULL`, which is plain equality on `Option`. -/
def matchesRelatedQ (src b : Article) : Bool :=
  b.category == src.category ||
    b.related_teams.any (fun t => src.related_teams.contains t) ||
    b.related_players.any (fun p => src.related_players.contains p)

/-- Helper for `distinct()`: keep each row whose article id has not been
seen yet. -/
def dedupByIdAux (seen : List Nat) : List Article → List Article
  | [] => []
  | a :: rest =>
      if seen.contains a.id then dedupByIdAux seen rest
      else a :: dedupByIdAux (a.id :: seen) rest

/-- `distinct()`: keep the first row for each article id. -/
def dedupById (l : List Article) : List Article :=
  dedupByIdAux [] l

/-- The related-articles query of `ArticleDetailView.get_context_data`
(views.py lines 142–148) before the `[:4]` slice:
`Article.objects.filter(status='published').filter(Q(...)).exclude(id=article.id).distinct()`.
The table is the list `db`; `Meta` default ordering is not modelled (the
placement of `NULL` `published_at` values under `ORDER BY … DESC` is
backend-dependent, and no verified property concerns the ranking). -/
def relatedCandidates (db : List Article) (src : Article) : List Article :=
  dedupById
    (((db.filter fun b => b.status == "published").filter
        fun b => matchesRelatedQ src b).filter
      fun b => b.id != src.id)

/-- `related_articles = ….distinct()[:4]` — the list handed to the
template. -/
def related_articles (db : List Article) (src : Article) : List Article :=
  (relatedCandidates db src).take 4

/-! ## Team aggregation (`ThunderView.get_context_data`) -/

/-- A row of the `blog_nbaplayer` table, restricted to the fields the
verified operations use: primary key and team foreign key. -/
structure NBAPlayer where
  id : Nat
  team : Nat
  deriving DecidableEq, Repr

/-- A row of the `blog_playerstats` table: player foreign key, the season
string, and the three per-game averages the Thunder page aggregates.  The
`FloatField` values are modelled as rationals. -/
structure PlayerStats where
  player : Nat
  season : String
  points_per_game : ℚ
  rebounds_per_game : ℚ
  assists_per_game : ℚ
  deriving DecidableEq, Repr

/-- The ordering `PlayerStats.Meta.ordering = ['-season']` (models.py lines
94–96): rows are returned season-descending. -/
def seasonDesc (a b : PlayerStats) : Prop := b.season ≤ a.season

instance : DecidableRel seasonDesc := fun a b =>
  inferInstanceAs (Decidable (b.season ≤ a.season))

instance : IsTotal PlayerStats seasonDesc :=
  ⟨fun a b => (le_total b.season a.season).imp id id⟩

instance : IsTrans PlayerStats seasonDesc :=
  ⟨fun _ _ _ hab hbc => le_trans hbc hab⟩

/-- `PlayerStats.objects.filter(player__team=…).values_list('season',
flat=True).first()` (views.py lines 229–231): the first season string under
the model's default `-season` ordering, or `None` when the team has no
stats rows.  `stats` is the list of that team's `PlayerStats` rows. -/
def latest_season (stats : List PlayerStats) : Option String :=
  ((stats.insertionSort seasonDesc).map (·.season)).head?

/-- The `team_stats` computation of `ThunderView.get_context_data`
(views.py lines 227–243).  `players` is the team's `NBAPlayer` rows and
`stats` its `PlayerStats` rows.  `Except.ok none` is the empty
`team_stats = {}` dict (reached when the team has no players, or
`latest_season` is falsy — `None` or the empty string).  When a truthy
latest season exists the code evaluates `models.Avg('points_per_game')`,
but views.py never binds the name `models` (its imports are
`from django.db.models import Q, Count, F, Prefetch` and
`from .models import …`), so the interpreter raises `NameError` before any
average is computed. -/
def thunderTeamStats (players : List NBAPlayer) (stats : List PlayerStats) :
    Except PyErr (Option Unit) :=
  if players.isEmpty then .ok none
  else
    match latest_season stats with
    | none => .ok none
    | some s => if s = "" then .ok none else .error .nameError

/-! ## Supporting lemmas -/

theorem existingView_eq_false {ledger : List ViewRow} {a : Nat} {ip : String}
    {d : Nat} (h : ∀ r ∈ ledger, ¬(r.article = a ∧ r.ip_address = ip)) :
    existingView ledger a ip d = false := by
  simp only [existingView, List.any_eq_false, Bool.and_eq_true, beq_iff_eq]
  intro r hr hc
  exact h r hr ⟨hc.1.1, hc.1.2⟩

theorem violatesUnique_eq_false {ledger : List ViewRow} {row : ViewRow}
    (h : ∀ r ∈ ledger, ¬(r.article = row.article ∧ r.ip_address = row.ip_address)) :
    violatesUnique ledger row = false := by
  simp only [violatesUnique, List.any_eq_false, Bool.and_eq_true, beq_iff_eq]
  intro r hr hc
  exact h r hr ⟨hc.1.1.1, hc.1.1.2⟩

theorem viewCountOf_increment (articles : List Article) (aid : Nat) :
    ((increment_views articles aid).find? fun x => x.id == aid).map (·.view_count)
      = ((articles.find? fun x => x.id == aid).map (·.view_count)).map (· + 1) := by
  induction articles with
  | nil => simp [increment_views]
  | cons x xs ih =>
      by_cases hx : x.id = aid
      · simp [increment_views, List.find?, hx]
      · have hxb : (x.id == aid) = false := beq_false_of_ne hx
        simpa [increment_views, List.find?, hxb] using ih

/-! ## C1 — idempotence of view recording within one day -/

/-- C1: for a fixed article, identity (IP and optional user) and calendar
day, starting from a store whose ledger has no row for that article and IP,
the first `track_article_view` call is accepted — it writes exactly one
ledger row and raises the article's `view_count` by exactly 1 — and every
further call that day is a no-op returning `accepted = false`, so any
number of calls leaves exactly one accepted view. -/
theorem track_view_idempotent_per_day (st : DBState) (a : Nat) (ip : String)
    (user : Option Nat) (agent : String) (d : Nat)
    (h : ∀ r ∈ st.ledger, ¬(r.article = a ∧ r.ip_address = ip)) :
    ∃ st₁,
      track_article_view st a ip user agent d = .ok (st₁, true) ∧
      st₁.ledger = ⟨a, user, ip, d, agent⟩ :: st.ledger ∧
      viewCountOf st₁ a = (viewCountOf st a).map (· + 1) ∧
      track_article_view st₁ a ip user agent d = .ok (st₁, false) ∧
      ∀ n, trackN a ip user agent d n st₁ = .ok st₁ := by
  have hex : existingView st.ledger a ip d = false := existingView_eq_false h
  have hvu : violatesUnique st.ledger ⟨a, user, ip, d, agent⟩ = false :=
    violatesUnique_eq_false (by simpa using h)
  refine ⟨{ articles := increment_views st.articles a,
            ledger := ⟨a, user, ip, d, agent⟩ :: st.ledger }, ?_, rfl, ?_, ?_, ?_⟩
  · simp [track_article_view, hex, createView, hvu]
  · simpa [viewCountOf] using viewCountOf_increment st.articles a
  · simp [track_article_view, existingView]
  · intro n
    induction n with
    | zero => rfl
    | succ k ih =>
        simpa [trackN, track_article_view, existingView] using ih

/-- Witness for C1: the theorem applied to a one-article store with an
empty ledger and the identity `{ip := "1.2.3.4", user := none}`. -/
theorem track_view_idempotent_per_day_witness :
    ∃ st₁,
      track_article_view ⟨[⟨1, "published", none, 0, [], []⟩], []⟩ 1 "1.2.3.4"
          none "Mozilla" 0 = .ok (st₁, true) ∧
      st₁.ledger = [⟨1, none, "1.2.3.4", 0, "Mozilla"⟩] ∧
      viewCountOf st₁ 1
        = (viewCountOf ⟨[⟨1, "published", none, 0, [], []⟩], []⟩ 1).map (· + 1) ∧
      track_article_view st₁ 1 "1.2.3.4" none "Mozilla" 0 = .ok (st₁, false) ∧
      ∀ n, trackN 1 "1.2.3.4" none "Mozilla" 0 n st₁ = .ok st₁ :=
  track_view_idempotent_per_day ⟨[⟨1, "published", none, 0, [], []⟩], []⟩ 1
    "1.2.3.4" none "Mozilla" 0 (by simp)

/-! ## C2 — day-boundary reset

The spec requires the same identity viewing the same article on two
different calendar days to produce two accepted views.  The existence check
of `track_article_view` is indeed scoped to `timestamp__date = today`, but
the ledger's unique constraint `unique_together = ['article', 'ip_address',
'user']` has no day component, so for an authenticated identity the
second day's `create` violates the constraint and raises an uncaught
`IntegrityError` instead of recording a second accepted view. -/

/-- C2: concrete run showing the day-boundary failure.  Authenticated user
7 at IP `1.2.3.4` views article 1 on day 100 (accepted), then views it
again on day 101: the existence check passes (different day) but the
insert hits the `['article', 'ip_address', 'user']` unique constraint and
`track_article_view` raises `IntegrityError` — the code rejects the
second-day view the spec says must be accepted. -/
theorem track_view_second_day_integrity_error :
    (track_article_view ⟨[⟨1, "published", none, 0, [], []⟩], []⟩ 1 "1.2.3.4"
        (some 7) "Mozilla" 100
      = .ok (⟨[⟨1, "published", none, 1, [], []⟩],
              [⟨1, some 7, "1.2.3.4", 100, "Mozilla"⟩]⟩, true)) ∧
    (track_article_view ⟨[⟨1, "published", none, 1, [], []⟩],
        [⟨1, some 7, "1.2.3.4", 100, "Mozilla"⟩]⟩ 1 "1.2.3.4"
        (some 7) "Mozilla" 101
      = .error .integrityError) := by
  constructor
  · rfl
  · rfl

/-! ## C3 — anonymous vs authenticated identities sharing an IP

The spec claims the optional user participates in the deduplication key of
the existence check, so an anonymous and an authenticated request from the
same IP each get their own accepted view per day.  The filter at views.py
lines 114–118 is `(article, ip_address, timestamp__date)` only — `user` is
absent — so the two identities are collapsed. -/

/-- C3 counterexample: on day 50, an anonymous view of article 2 from IP
`5.6.7.8` is accepted; an authenticated view (user 3) from the same IP the
same day is then rejected (`accepted = false`, store unchanged: one ledger
row, `view_count = 1`), contradicting the claim that each identity gets
its own accepted view. -/
theorem track_view_user_not_in_dedup_key :
    (track_article_view ⟨[⟨2, "published", none, 0, [], []⟩], []⟩ 2 "5.6.7.8"
        none "UA" 50
      = .ok (⟨[⟨2, "published", none, 1, [], []⟩],
              [⟨2, none, "5.6.7.8", 50, "UA"⟩]⟩, true)) ∧
    (track_article_view ⟨[⟨2, "published", none, 1, [], []⟩],
        [⟨2, none, "5.6.7.8", 50, "UA"⟩]⟩ 2 "5.6.7.8"
        (some 3) "UA" 50
      = .ok (⟨[⟨2, "published", none, 1, [], []⟩],
              [⟨2, none, "5.6.7.8", 50, "UA"⟩]⟩, false)) := by
  constructor
  · rfl
  · rfl

/-- C3 (amended): the deduplication key used by the existence check is
`(article, ip_address, day)` with no user component: once any ledger row
for that article, IP and day exists, every further call that day is a
rejected no-op regardless of which user (or no user) makes it. -/
theorem track_view_dedup_key_is_article_ip_day (st : DBState) (a : Nat)
    (ip : String) (user : Option Nat) (agent : String) (d : Nat)
    (h : ∃ r ∈ st.ledger, r.article = a ∧ r.ip_address = ip ∧ r.day = d) :
    track_article_view st a ip user agent d = .ok (st, false) := by
  have hex : existingView st.ledger a ip d = true := by
    simp only [existingView, List.any_eq_true, Bool.and_eq_true, beq_iff_eq]
    obtain ⟨r, hr, h1, h2, h3⟩ := h
    exact ⟨r, hr, ⟨h1, h2⟩, h3⟩
  simp [track_article_view, hex]

/-- Witness for the amended C3: an authenticated call is a no-op on a store
whose only ledger row is an anonymous view from the same IP that day. -/
theorem track_view_dedup_key_is_article_ip_day_witness :
    track_article_view ⟨[⟨2, "published", none, 1, [], []⟩],
        [⟨2, none, "5.6.7.8", 50, "UA"⟩]⟩ 2 "5.6.7.8" (some 3) "UA" 50
      = .ok (⟨[⟨2, "published", none, 1, [], []⟩],
              [⟨2, none, "5.6.7.8", 50, "UA"⟩]⟩, false) :=
  track_view_dedup_key_is_article_ip_day _ 2 "5.6.7.8" (some 3) "UA" 50
    ⟨⟨2, none, "5.6.7.8", 50, "UA"⟩, by simp, rfl, rfl, rfl⟩

/-! ## C4 — duplicate-key conflicts are not recovered

The spec claims a duplicate-key conflict is converted to
`accepted = false` inside the operation.  The `create` call at views.py
lines 121–126 has no `try`/`except`, so the `IntegrityError` escapes
`track_article_view` uncaught. -/

/-- C4 counterexample: with a prior ledger row `(article 4, IP 9.8.7.6,
user 2)` from day 10, the day-11 call passes the existence check and the
insert hits the unique constraint: `track_article_view` raises
`IntegrityError` instead of returning `accepted = false`. -/
theorem track_view_conflict_not_silent :
    track_article_view ⟨[⟨4, "published", none, 1, [], []⟩],
        [⟨4, some 2, "9.8.7.6", 10, "UA"⟩]⟩ 4 "9.8.7.6" (some 2) "UA" 11
      = .error .integrityError := by
  rfl

/-- C4 (amended): whenever the existence check passes but the insert
violates the ledger's unique constraint, `track_article_view` propagates
`IntegrityError` to its caller — no result state is produced, so in
particular the view counter is not incremented. -/
theorem track_view_conflict_raises (st : DBState) (a : Nat) (ip : String)
    (user : Option Nat) (agent : String) (d : Nat)
    (hex : existingView st.ledger a ip d = false)
    (hvu : violatesUnique st.ledger ⟨a, user, ip, d, agent⟩ = true) :
    track_article_view st a ip user agent d = .error .integrityError := by
  simp [track_article_view, hex, createView, hvu]

/-- Witness for the amended C4: the conflict hypotheses hold at the
concrete day-11 replay of an authenticated day-10 view. -/
theorem track_view_conflict_raises_witness :
    existingView [⟨4, some 2, "9.8.7.6", 10, "UA"⟩] 4 "9.8.7.6" 11 = false ∧
    violatesUnique [⟨4, some 2, "9.8.7.6", 10, "UA"⟩]
      ⟨4, some 2, "9.8.7.6", 11, "UA"⟩ = true ∧
    track_article_view ⟨[⟨4, "published", none, 1, [], []⟩],
        [⟨4, some 2, "9.8.7.6", 10, "UA"⟩]⟩ 4 "9.8.7.6" (some 2) "UA" 11
      = .error .integrityError :=
  ⟨by decide, by decide,
    track_view_conflict_raises ⟨[⟨4, "published", none, 1, [], []⟩],
      [⟨4, some 2, "9.8.7.6", 10, "UA"⟩]⟩ 4 "9.8.7.6" (some 2) "UA" 11
      (by decide) (by decide)⟩

/-! ## C5 — related articles: no self, only published, no duplicates -/

theorem dedupByIdAux_subset (l : List Article) :
    ∀ (seen : List Nat), ∀ b ∈ dedupByIdAux seen l, b ∈ l := by
  induction l with
  | nil => simp [dedupByIdAux]
  | cons a rest ih =>
      intro seen b hb
      rw [dedupByIdAux] at hb
      by_cases h : seen.contains a.id
      · rw [if_pos h] at hb
        exact List.mem_cons_of_mem _ (ih seen b hb)
      · rw [if_neg h] at hb
        rcases List.mem_cons.mp hb with rfl | hb'
        · exact List.mem_cons_self _ _
        · exact List.mem_cons_of_mem _ (ih _ b hb')

theorem dedupByIdAux_not_seen (l : List Article) :
    ∀ (seen : List Nat), ∀ b ∈ dedupByIdAux seen l, b.id ∉ seen := by
  induction l with
  | nil => simp [dedupByIdAux]
  | cons a rest ih =>
      intro seen b hb
      rw [dedupByIdAux] at hb
      by_cases h : seen.contains a.id
      · rw [if_pos h] at hb
        exact ih seen b hb
      · rw [if_neg h] at hb
        rcases List.mem_cons.mp hb with rfl | hb'
        · exact fun hc => h (List.elem_iff.mpr hc)
        · have := ih _ b hb'
          exact fun hc => this (List.mem_cons_of_mem _ hc)

theorem dedupByIdAux_pairwise (l : List Article) :
    ∀ (seen : List Nat),
      (dedupByIdAux seen l).Pairwise (fun x y => x.id ≠ y.id) := by
  induction l with
  | nil => intro seen; simp [dedupByIdAux]
  | cons a rest ih =>
      intro seen
      rw [dedupByIdAux]
      by_cases h : seen.contains a.id
      · rw [if_pos h]; exact ih seen
      · rw [if_neg h]
        refine List.Pairwise.cons ?_ (ih _)
        intro b hb
        have := dedupByIdAux_not_seen rest (a.id :: seen) b hb
        exact fun hc => this (hc ▸ List.mem_cons_self _ _)

/-- C5: for every table, source article and truncation limit, the
deduplicated related-articles result contains no two rows with the same
article id, and every row in it is published and is not the source article
itself. -/
theorem related_articles_sound (db : List Article) (src : Article)
    (limit : Nat) :
    ((relatedCandidates db src).take limit).Pairwise (fun x y => x.id ≠ y.id) ∧
    ∀ b ∈ (relatedCandidates db src).take limit,
      b.status = "published" ∧ b.id ≠ src.id := by
  constructor
  · exact List.Pairwise.sublist (List.take_sublist _ _)
      (dedupByIdAux_pairwise _ [])
  · intro b hb
    have hb₁ : b ∈ relatedCandidates db src := List.mem_of_mem_take hb
    have hb₂ := dedupByIdAux_subset _ [] b hb₁
    have h₃ := List.mem_filter.mp hb₂
    have h₂ := List.mem_filter.mp h₃.1
    have h₁ := List.mem_filter.mp h₂.1
    refine ⟨by simpa using h₁.2, ?_⟩
    simpa using h₃.2

/-- Witness for C5: a three-article table (source 1 published, candidate 2
published sharing the category, article 3 draft); candidate 2 is in the
result and satisfies the guarantees. -/
theorem related_articles_sound_witness :
    ((relatedCandidates
        [⟨1, "published", some 10, 0, [], []⟩,
         ⟨2, "published", some 10, 0, [], []⟩,
         ⟨3, "draft", some 10, 0, [], []⟩]
        ⟨1, "published", some 10, 0, [], []⟩).take 4).Pairwise
      (fun x y => x.id ≠ y.id) ∧
    ((⟨2, "published", some 10, 0, [], []⟩ : Article).status = "published" ∧
      (⟨2, "published", some 10, 0, [], []⟩ : Article).id
        ≠ (⟨1, "published", some 10, 0, [], []⟩ : Article).id) :=
  ⟨(related_articles_sound
      [⟨1, "published", some 10, 0, [], []⟩,
       ⟨2, "published", some 10, 0, [], []⟩,
       ⟨3, "draft", some 10, 0, [], []⟩]
      ⟨1, "published", some 10, 0, [], []⟩ 4).1,
   (related_articles_sound
      [⟨1, "published", some 10, 0, [], []⟩,
       ⟨2, "published", some 10, 0, [], []⟩,
       ⟨3, "draft", some 10, 0, [], []⟩]
      ⟨1, "published", some 10, 0, [], []⟩ 4).2
     ⟨2, "published", some 10, 0, [], []⟩ (by decide)⟩

/-! ## C6 — source article with no category and no associations

The spec claims the related-content result is then empty.  But
`Q(category=article.category)` with `article.category = None` compiles to
`category IS NULL`, so every other published article that also lacks a
category matches the query. -/

/-- C6 counterexample: article 1 (published, no category, no teams, no
players) and article 2 (published, no category): the related-articles
result for article 1 is `[article 2]`, not the empty sequence the claim
requires. -/
theorem related_articles_null_category_not_empty :
    related_articles
        [⟨1, "published", none, 0, [], []⟩, ⟨2, "published", none, 0, [], []⟩]
        ⟨1, "published", none, 0, [], []⟩
      = [⟨2, "published", none, 0, [], []⟩] ∧
    related_articles
        [⟨1, "published", none, 0, [], []⟩, ⟨2, "published", none, 0, [], []⟩]
        ⟨1, "published", none, 0, [], []⟩
      ≠ [] := by
  constructor
  · rfl
  · decide

theorem dedupByIdAux_eq_self (l : List Article) :
    ∀ (seen : List Nat), (∀ b ∈ l, b.id ∉ seen) →
      l.Pairwise (fun x y => x.id ≠ y.id) → dedupByIdAux seen l = l := by
  induction l with
  | nil => intro seen _ _; rfl
  | cons a rest ih =>
      intro seen hseen hpw
      rw [dedupByIdAux]
      rw [if_neg fun hc =>
        hseen a (List.mem_cons_self _ _) (List.elem_iff.mp hc)]
      refine congrArg (a :: ·) (ih _ ?_ hpw.of_cons)
      intro b hb hc
      rcases List.mem_cons.mp hc with hc' | hc'
      · exact (List.rel_of_pairwise_cons hpw hb) hc'.symm
      · exact hseen b (List.mem_cons_of_mem _ hb) hc'

/-- C6 (amended): when the source article has no category and no related
teams or players, the related-content candidates are exactly the other
published articles that also have no category (the `None` category matches
`category IS NULL`); the result is empty only when no such article exists
in the table. -/
theorem related_articles_orphan_source (db : List Article) (src : Article)
    (hcat : src.category = none) (hteams : src.related_teams = [])
    (hplayers : src.related_players = [])
    (hids : db.Pairwise (fun x y => x.id ≠ y.id)) :
    (∀ b, b ∈ relatedCandidates db src ↔
      (b ∈ db ∧ b.status = "published" ∧ b.category = none ∧ b.id ≠ src.id)) ∧
    (related_articles db src = [] ↔
      ∀ b ∈ db, ¬(b.status = "published" ∧ b.category = none ∧ b.id ≠ src.id)) := by
  have hsub :
      (((db.filter fun b => b.status == "published").filter
          fun b => matchesRelatedQ src b).filter
        fun b => b.id != src.id).Sublist db :=
    ((List.filter_sublist _).trans (List.filter_sublist _)).trans
      (List.filter_sublist _)
  have hded :
      relatedCandidates db src
        = ((db.filter fun b => b.status == "published").filter
            fun b => matchesRelatedQ src b).filter
          fun b => b.id != src.id :=
    dedupByIdAux_eq_self _ [] (by simp) (List.Pairwise.sublist hsub hids)
  have hmem : ∀ b, b ∈ relatedCandidates db src ↔
      (b ∈ db ∧ b.status = "published" ∧ b.category = none ∧ b.id ≠ src.id) := by
    intro b
    rw [hded]
    simp only [List.mem_filter, Bool.and_eq_true, beq_iff_eq, bne_iff_ne,
      matchesRelatedQ, hcat, hteams, hplayers, Bool.or_eq_true,
      List.any_eq_true, List.contains_eq_any_beq, List.any_nil]
    constructor
    · rintro ⟨⟨⟨hdb, hst⟩, hq⟩, hid⟩
      rcases hq with (hq | hq) | hq
      · exact ⟨hdb, hst, hq, hid⟩
      · simp at hq
      · simp at hq
    · rintro ⟨hdb, hst, hc, hid⟩
      exact ⟨⟨⟨hdb, hst⟩, Or.inl (Or.inl hc)⟩, hid⟩
  refine ⟨hmem, ?_⟩
  constructor
  · intro h b hb hc
    have hnil : relatedCandidates db src = [] := by
      rcases List.take_eq_nil_iff.mp h with h4 | hl
      · exact absurd h4 (by decide)
      · exact hl
    have : b ∈ relatedCandidates db src := (hmem b).mpr ⟨hb, hc⟩
    simp [hnil] at this
  · intro h
    have hnil : relatedCandidates db src = [] := by
      rcases List.eq_nil_or_concat (relatedCandidates db src) with hnil | ⟨l, b, hb⟩
      · exact hnil
      · exfalso
        have hbmem : b ∈ relatedCandidates db src := by
          rw [hb]; simp
        have := (hmem b).mp hbmem
        exact h b this.1 this.2
    simp [related_articles, hnil]

/-- Witness for the amended C6: with table `[article 5, article 6]` (both
published, both without category), the membership characterisation applied
to article 6 — it is a related candidate of article 5 because it is a
published article with no category and a different id. -/
theorem related_articles_orphan_source_witness :
    (⟨6, "published", none, 0, [], []⟩ : Article) ∈
        relatedCandidates
          [⟨5, "published", none, 0, [], []⟩, ⟨6, "published", none, 0, [], []⟩]
          ⟨5, "published", none, 0, [], []⟩ ↔
      ((⟨6, "published", none, 0, [], []⟩ : Article) ∈
          [⟨5, "published", none, 0, [], []⟩,
           (⟨6, "published", none, 0, [], []⟩ : Article)] ∧
        (⟨6, "published", none, 0, [], []⟩ : Article).status = "published" ∧
        (⟨6, "published", none, 0, [], []⟩ : Article).category = none ∧
        (⟨6, "published", none, 0, [], []⟩ : Article).id
          ≠ (⟨5, "published", none, 0, [], []⟩ : Article).id) :=
  (related_articles_orphan_source
      [⟨5, "published", none, 0, [], []⟩, ⟨6, "published", none, 0, [], []⟩]
      ⟨5, "published", none, 0, [], []⟩ rfl rfl rfl (by decide)).1
    ⟨6, "published", none, 0, [], []⟩

/-! ## C7 — team-stats aggregation

The spec's scenario (points 20 and 10 for the latest season → avgPoints
15, with absent averages on empty input) never happens in the code: the
aggregation line evaluates `models.Avg`, and views.py never binds the name
`models`, so the whole branch raises `NameError` the moment a team has a
truthy latest season. -/

/-- C7: at the spec's own scenario — one Thunder player with two stats
rows for season `2024-25`, 20 and 10 points per game — the team-stats
computation raises `NameError` instead of producing `avgPoints = 15`; the
empty-input path (no players, no stats) yields the empty `team_stats`
dict, reported here as `none`. -/
theorem thunderTeamStats_name_error :
    thunderTeamStats [⟨1, 30⟩]
        [⟨1, "2024-25", 20, 5, 5⟩, ⟨2, "2024-25", 10, 3, 7⟩]
      = .error .nameError ∧
    thunderTeamStats [] [] = .ok none := by
  constructor
  · have hsort : List.insertionSort seasonDesc
        [⟨1, "2024-25", 20, 5, 5⟩, ⟨2, "2024-25", 10, 3, 7⟩]
        = [⟨1, "2024-25", 20, 5, 5⟩, ⟨2, "2024-25", 10, 3, 7⟩] := by
      simp [List.insertionSort, List.orderedInsert, seasonDesc]
    have hls : latest_season
        [⟨1, "2024-25", 20, 5, 5⟩, ⟨2, "2024-25", 10, 3, 7⟩]
        = some "2024-25" := by
      simp only [latest_season, hsort]
      rfl
    simp [thunderTeamStats, hls]
  · rfl

/-! ## C8 — client IP resolution -/

theorem pySplit_no_sep (sep : Char) (a : List Char) (h : sep ∉ a) :
    pySplit sep a = [a] := by
  induction a with
  | nil => rfl
  | cons c rest ih =>
      rw [pySplit]
      rw [if_neg fun hc => h (List.mem_cons.mpr (Or.inl hc.symm))]
      rw [ih fun hc => h (List.mem_cons_of_mem _ hc)]
      rfl

theorem pySplit_first_entry (sep : Char) (a b : List Char) (h : sep ∉ a) :
    pySplit sep (a ++ sep :: b) = a :: pySplit sep b := by
  induction a with
  | nil =>
      rw [List.nil_append, pySplit, if_pos rfl]
  | cons c rest ih =>
      rw [List.cons_append, pySplit]
      rw [if_neg fun hc => h (List.mem_cons.mpr (Or.inl hc.symm))]
      rw [ih fun hc => h (List.mem_cons_of_mem _ hc)]
      rfl

/-- C8 counterexample: with header `" 1.2.3.4 ,5.6.7.8"` the resolver
returns the first entry with its whitespace intact, `" 1.2.3.4 "`, not the
trimmed `"1.2.3.4"` the claim requires; and with a present-but-empty
header it falls back to the connection address `"9.9.9.9"` instead of
returning the header's (empty) first entry. -/
theorem get_client_ip_not_trimmed :
    (get_client_ip (some (" 1.2.3.4 ,5.6.7.8".toList))
        (some ("9.9.9.9".toList))
      = some (" 1.2.3.4 ".toList)) ∧
    some (" 1.2.3.4 ".toList) ≠ some ("1.2.3.4".toList) ∧
    (get_client_ip (some ("".toList)) (some ("9.9.9.9".toList))
      = some ("9.9.9.9".toList)) ∧
    some ("9.9.9.9".toList) ≠ some ("".toList) := by
  refine ⟨by decide, by decide, by decide, by decide⟩

/-- C8 (amended): the resolver is a pure function of the header map and
connection address; when the forwarded-for header is present and
non-empty it returns the first comma-separated entry exactly as it
appears, with no whitespace trimming and no IP-syntax validation, and
otherwise — header absent or empty — it returns the direct connection
address. -/
theorem get_client_ip_first_entry_verbatim :
    (∀ (a b : List Char) (remote : Option (List Char)), ',' ∉ a → a ≠ [] →
      get_client_ip (some (a ++ ',' :: b)) remote = some a) ∧
    (∀ (a : List Char) (remote : Option (List Char)), ',' ∉ a → a ≠ [] →
      get_client_ip (some a) remote = some a) ∧
    (∀ remote, get_client_ip none remote = remote) ∧
    (∀ remote, get_client_ip (some []) remote = remote) := by
  refine ⟨?_, ?_, fun _ => rfl, fun _ => rfl⟩
  · intro a b remote ha hne
    rw [get_client_ip, if_neg (by simp [hne]), pySplit_first_entry ',' a b ha]
    rfl
  · intro a remote ha hne
    rw [get_client_ip, if_neg hne, pySplit_no_sep ',' a ha]
    rfl

/-- Witness for the amended C8: the first entry of
`"1.2.3.4 ,5.6.7.8"` is returned verbatim (`"1.2.3.4 "`, trailing space
kept). -/
theorem get_client_ip_first_entry_verbatim_witness :
    get_client_ip (some ("1.2.3.4 ".toList ++ ',' :: "5.6.7.8".toList))
        (some ("9.9.9.9".toList))
      = some ("1.2.3.4 ".toList) :=
  get_client_ip_first_entry_verbatim.1 ("1.2.3.4 ".toList) ("5.6.7.8".toList)
    (some ("9.9.9.9".toList)) (by decide) (by decide)

/-! ## C9 — `view_count` versus the ledger

The spec claims `view_count` is written only through the single counter
path that follows an accepted ledger insert, so it always equals the
number of ledger entries.  `track_article_view` indeed preserves that
invariant, but the program also exposes the AJAX endpoint
`increment_article_views`, which increments the counter without writing
any ledger row. -/

/-- The claimed invariant: every article's stored `view_count` equals the
number of ledger rows recorded for it. -/
def counterInvariant (st : DBState) : Prop :=
  ∀ a ∈ st.articles, a.view_count = ledgerCountOf st a.id

instance (st : DBState) : Decidable (counterInvariant st) :=
  inferInstanceAs (Decidable (∀ a ∈ st.articles, a.view_count = ledgerCountOf st a.id))

/-- C9 counterexample: from a state satisfying the invariant (article 9,
`view_count = 0`, empty ledger), one POST to the exposed AJAX endpoint
`increment_article_views` yields `view_count = 1` with still zero ledger
rows — a reachable state where `view_count` diverges from the
ledger-entry count. -/
theorem increment_ajax_breaks_invariant :
    counterInvariant ⟨[⟨9, "published", none, 0, [], []⟩], []⟩ ∧
    (increment_article_views ⟨[⟨9, "published", none, 0, [], []⟩], []⟩ 9).1
      = ⟨[⟨9, "published", none, 1, [], []⟩], []⟩ ∧
    viewCountOf ⟨[⟨9, "published", none, 1, [], []⟩], []⟩ 9 = some 1 ∧
    ledgerCountOf ⟨[⟨9, "published", none, 1, [], []⟩], []⟩ 9 = 0 ∧
    ¬ counterInvariant ⟨[⟨9, "published", none, 1, [], []⟩], []⟩ := by
  refine ⟨by decide, by decide, by decide, by decide, by decide⟩

/-- C9 (amended): the invariant `view_count = number of ledger entries` is
preserved by every successful `track_article_view` call — the tracking
path increments the counter exactly once per inserted ledger row — but it
is not a whole-program invariant, because the AJAX endpoint
`increment_article_views` writes the counter without a ledger entry. -/
theorem track_view_preserves_counter_invariant (st : DBState) (a : Nat)
    (ip : String) (user : Option Nat) (agent : String) (d : Nat)
    (st' : DBState) (accepted : Bool) (hInv : counterInvariant st)
    (h : track_article_view st a ip user agent d = .ok (st', accepted)) :
    counterInvariant st' := by
  unfold track_article_view at h
  by_cases hex : existingView st.ledger a ip d
  · rw [if_pos hex] at h
    cases h
    exact hInv
  · rw [if_neg hex] at h
    by_cases hvu : violatesUnique st.ledger ⟨a, user, ip, d, agent⟩
    · simp [createView, hvu] at h
    · simp only [createView, if_neg hvu] at h
      cases h
      intro b hb
      simp only [increment_views, List.mem_map] at hb
      obtain ⟨a₀, ha₀, rfl⟩ := hb
      by_cases hid : a₀.id = a
      · simp only [ledgerCountOf, beq_iff_eq, hid, beq_self_eq_true,
          if_pos, List.filter_cons]
        have := hInv a₀ ha₀
        simp only [ledgerCountOf] at this
        simp [hid, this]
      · have hidb : (a₀.id == a) = false := beq_false_of_ne hid
        simp only [hidb, Bool.false_eq_true, if_false]
        have := hInv a₀ ha₀
        simp only [ledgerCountOf] at this ⊢
        simp only [List.filter_cons]
        have : ((⟨a, user, ip, d, agent⟩ : ViewRow).article == a₀.id) = false :=
          beq_false_of_ne fun hc => hid (by simpa using hc.symm)
        simp [this]
        exact hInv a₀ ha₀

/-- Witness for the amended C9: the invariant holds again after an
accepted tracking call on a one-article store. -/
theorem track_view_preserves_counter_invariant_witness :
    counterInvariant ⟨[⟨9, "published", none, 1, [], []⟩],
      [⟨9, none, "1.1.1.1", 3, "UA"⟩]⟩ :=
  track_view_preserves_counter_invariant
    ⟨[⟨9, "published", none, 0, [], []⟩], []⟩ 9 "1.1.1.1" none "UA" 3
    ⟨[⟨9, "published", none, 1, [], []⟩], [⟨9, none, "1.1.1.1", 3, "UA"⟩]⟩
    true (by decide) rfl

/-! ## C10 — "latest season" selection -/

/-- C10: for every non-empty list of a team's `PlayerStats` rows, the
season selected by `latest_season` — `.first()` under the model's default
`-season` ordering — is the lexicographically greatest season string
present among the rows, independent of insertion order. -/
theorem latest_season_is_max_season (stats : List PlayerStats)
    (h : stats ≠ []) :
    ∃ s, latest_season stats = some s ∧ (∃ r ∈ stats, r.season = s) ∧
      ∀ r ∈ stats, r.season ≤ s := by
  have hperm := List.perm_insertionSort seasonDesc stats
  have hsorted := List.sorted_insertionSort seasonDesc stats
  rcases hl : stats.insertionSort seasonDesc with _ | ⟨x, t⟩
  · rw [hl] at hperm
    exact absurd hperm.nil_eq.symm h
  · rw [hl] at hperm hsorted
    refine ⟨x.season, ?_, ⟨x, hperm.mem_iff.mp (List.mem_cons_self _ _), rfl⟩, ?_⟩
    · simp [latest_season, hl]
    · intro r hr
      rcases List.mem_cons.mp (hperm.mem_iff.mpr hr) with rfl | hrt
      · exact le_refl _
      · exact List.rel_of_sorted_cons hsorted r hrt

/-- Witness for C10: on two rows recorded older-season-first, the selected
season exists and is the maximum. -/
theorem latest_season_is_max_season_witness :
    ∃ s, latest_season [⟨1, "2023-24", 10, 3, 7⟩, ⟨2, "2024-25", 20, 5, 5⟩]
        = some s ∧
      (∃ r ∈ [(⟨1, "2023-24", 10, 3, 7⟩ : PlayerStats),
              ⟨2, "2024-25", 20, 5, 5⟩], r.season = s) ∧
      ∀ r ∈ [(⟨1, "2023-24", 10, 3, 7⟩ : PlayerStats),
             ⟨2, "2024-25", 20, 5, 5⟩], r.season ≤ s :=
  latest_season_is_max_season
    [⟨1, "2023-24", 10, 3, 7⟩, ⟨2, "2024-25", 20, 5, 5⟩] (by decide)

end NBATruths
